import Mathlib

/-!
  # Medix Camp server — registration lifecycle, verified

  A shallow embedding of the Express/MongoDB handlers of the medix-camp
  server (`src/index.js`). Each HTTP handler becomes a pure function over
  an explicit database state `DB`; the MongoDB single-document primitives
  become list operations:

  * `findOne`            → `List.find?`
  * `insertOne`          → append (`++ [doc]`), `_id` drawn from `DB.nextId`
  * `updateOne` (`$set`/`$inc`) → `updateFirst` (first match, modifiedCount)
  * `deleteOne`          → `deleteFirst` (first match, deletedCount)
  * `deleteMany`         → `List.filter` with the negated predicate

  JavaScript truthiness of the validated request fields (`!camp.title`,
  `!transactionId`, `registration.campFees || amount || 0`,
  `camp.images?.length`) is modelled by `strTruthy`, `intTruthy`,
  `imagesTruthy` and `jsAmount` over `Option` fields: a missing field and
  the empty string (resp. the number 0) are falsy, exactly as in JS.

  Identifiers (Mongo ObjectIds) are opaque and modelled as `Nat`; the
  `new ObjectId(s)` cast is the identity. Timestamps
  (`new Date().toISOString()`) are an explicit `now : Nat` parameter.
-/

namespace MedixCamp

/-- JS truthiness of an optional string field: missing and `""` are falsy. -/
def strTruthy : Option String → Bool
  | none => false
  | some s => !(s == "")

/-- JS truthiness of an optional numeric field: missing and `0` are falsy. -/
def intTruthy : Option Int → Bool
  | none => false
  | some v => !(v == 0)

/-- JS truthiness of `images?.length`: present and non-empty. -/
def imagesTruthy : Option (List String) → Bool
  | none => false
  | some l => !(l.length == 0)

/-- The payment amount `registration.campFees || amount || 0` from the
payment handler: the camp-fee snapshot when truthy, else the caller-supplied
amount when truthy, else zero. -/
def jsAmount (campFees amount : Option Int) : Int :=
  if intTruthy campFees then campFees.getD 0
  else if intTruthy amount then amount.getD 0
  else 0

/-- ASCII lowercase of one character, as JS `toLowerCase()` acts on the
ASCII range emails live in. -/
def lowerChar (ch : Char) : Char :=
  if 65 ≤ ch.toNat ∧ ch.toNat ≤ 90 then Char.ofNat (ch.toNat + 32) else ch

/-- ASCII lowercase of a string: the email normalization
`user.email.toLowerCase()` of the user-creation handler. -/
def lowerStr (s : String) : String := String.mk (s.data.map lowerChar)

/-- `updateOne`: apply `f` to the first element matching `p`; returns the
new list and the modifiedCount (`1` on a match, else `0`). -/
def updateFirst (p : α → Bool) (f : α → α) : List α → List α × Nat
  | [] => ([], 0)
  | x :: xs =>
    if p x then (f x :: xs, 1)
    else (x :: (updateFirst p f xs).1, (updateFirst p f xs).2)

/-- `deleteOne`: remove the first element matching `p`; returns the new
list and the deletedCount (`1` on a match, else `0`). -/
def deleteFirst (p : α → Bool) : List α → List α × Nat
  | [] => ([], 0)
  | x :: xs =>
    if p x then (xs, 1)
    else (x :: (deleteFirst p xs).1, (deleteFirst p xs).2)

/-- A document of the `users` collection. -/
structure User where
  uid : Nat
  email : String
  role : String
  created_at : Nat
  last_log_in : Nat
deriving DecidableEq

/-- A document of the `camps` collection. -/
structure Camp where
  cid : Nat
  title : String
  date : String
  time : String
  images : List String
  participant_count : Int
  createdAt : Nat
deriving DecidableEq

/-- A document of the `registrations` collection. `POST /registrations`
performs no body validation, so either camp-reference field may be absent:
its own clients send `campId`, `camp_id` is carried separately because
`DELETE /camps/:id` cascades on `camp_id` and `DELETE /registrations/:id`
reads `registration.campId || registration.camp_id`. -/
structure Registration where
  rid : Nat
  campId : Option Nat
  camp_id : Option Nat
  participantEmail : String
  campName : String
  campFees : Option Int
  paymentStatus : String
  confirmationStatus : String
  transactionId : Option String
  paymentDate : Option String
  createdAt : Nat
deriving DecidableEq

/-- A document of the `payments` collection. -/
structure Payment where
  pid : Nat
  participantEmail : String
  campName : String
  amount : Int
  paymentStatus : String
  confirmationStatus : String
  transactionId : String
  paymentDate : String
deriving DecidableEq

/-- The database state: the four collections the lifecycle touches, plus
the generator for fresh ObjectIds. -/
structure DB where
  users : List User
  camps : List Camp
  registrations : List Registration
  payments : List Payment
  nextId : Nat
deriving DecidableEq

/-- Body of `POST /users`. The handler overwrites `role`, `created_at` and
`last_log_in`, so caller-supplied values for them are carried only to show
they are ignored. -/
structure UserReq where
  email : String
  role : Option String := none
  created_at : Option Nat := none
deriving DecidableEq

/-- Body of `POST /camps`. The handler overwrites `createdAt` and
`participant_count`, so caller-supplied values for them are carried only to
show they are ignored. -/
structure CampReq where
  title : Option String
  date : Option String
  time : Option String
  images : Option (List String)
  participant_count : Option Int := none
  createdAt : Option Nat := none
deriving DecidableEq

/-- Body of `POST /registrations`. The handler overwrites `paymentStatus`,
`confirmationStatus` and `createdAt`, so caller-supplied values for them are
carried only to show they are ignored. -/
structure RegReq where
  campId : Option Nat := none
  camp_id : Option Nat := none
  participantEmail : String
  campName : String
  campFees : Option Int := none
  paymentStatus : Option String := none
  confirmationStatus : Option String := none
  createdAt : Option Nat := none
deriving DecidableEq

/-- Body of `PATCH /registrations/:id/payment`. -/
structure PaymentReq where
  transactionId : Option String
  paymentStatus : Option String
  paymentDate : Option String
  amount : Option Int := none
deriving DecidableEq

/-- Response of `POST /users`. -/
structure CreateUserResult where
  status : Nat
  insertedId : Option Nat
deriving DecidableEq

/-- Response of `POST /camps`. -/
structure CreateCampResult where
  status : Nat
  insertedId : Option Nat
deriving DecidableEq

/-- Response of `DELETE /camps/:id`. -/
structure DeleteCampResult where
  status : Nat
deriving DecidableEq

/-- Response of `POST /registrations`: the new registration id and the
modifiedCount of the counter increment. -/
structure RegisterResult where
  status : Nat
  registrationId : Option Nat
  updatedCount : Nat
deriving DecidableEq

/-- Response of `DELETE /registrations/:id`. -/
structure DeleteRegResult where
  status : Nat
  deletedCount : Nat
deriving DecidableEq

/-- Response of `PATCH /registrations/:id/payment`. -/
structure RecordPaymentResult where
  status : Nat
  registrationUpdate : Nat
  paymentInsert : Option Nat
  roleUpdate : Nat
deriving DecidableEq

/-- `POST /users`: lowercase the email, stamp role `"user"` and the
timestamps, reject with 409 when a user with that email exists, else
insert. -/
def createUser (u : UserReq) (now : Nat) (db : DB) : CreateUserResult × DB :=
  let email := lowerStr u.email
  match db.users.find? (fun x => x.email == email) with
  | some _ => ({ status := 409, insertedId := none }, db)
  | none =>
    let newUser : User :=
      { uid := db.nextId, email := email, role := "user",
        created_at := now, last_log_in := now }
    ({ status := 200, insertedId := some db.nextId },
     { db with users := db.users ++ [newUser], nextId := db.nextId + 1 })

/-- `POST /camps`: reject with 400 unless title, date, time are truthy and
`images?.length` is truthy; else stamp `createdAt` and
`participant_count = 0` and insert. -/
def createCamp (c : CampReq) (now : Nat) (db : DB) : CreateCampResult × DB :=
  if !strTruthy c.title || !strTruthy c.date || !strTruthy c.time
      || !imagesTruthy c.images then
    ({ status := 400, insertedId := none }, db)
  else
    let camp : Camp :=
      { cid := db.nextId, title := c.title.getD "", date := c.date.getD "",
        time := c.time.getD "", images := c.images.getD [],
        participant_count := 0, createdAt := now }
    ({ status := 200, insertedId := some db.nextId },
     { db with camps := db.camps ++ [camp], nextId := db.nextId + 1 })

/-- `DELETE /camps/:id`: delete the camp (404 when absent), then
`deleteMany({ camp_id: id })` on registrations — note the filter is on the
field `camp_id`, not `campId`. -/
def deleteCamp (id : Nat) (db : DB) : DeleteCampResult × DB :=
  let d := deleteFirst (fun c => c.cid == id) db.camps
  if d.2 == 0 then ({ status := 404 }, db)
  else
    ({ status := 200 },
     { db with camps := d.1,
               registrations :=
                 db.registrations.filter (fun g => !(g.camp_id == some id)) })

/-- The registration document `POST /registrations` inserts: the request
body with `paymentStatus = "unpaid"`, `confirmationStatus = "pending"` and
the creation timestamp forced onto it. -/
def newRegistration (r : RegReq) (now : Nat) (id : Nat) : Registration :=
  { rid := id, campId := r.campId, camp_id := r.camp_id,
    participantEmail := r.participantEmail, campName := r.campName,
    campFees := r.campFees, paymentStatus := "unpaid",
    confirmationStatus := "pending", transactionId := none,
    paymentDate := none, createdAt := now }

/-- `POST /registrations`: force `paymentStatus = "unpaid"`,
`confirmationStatus = "pending"` and the creation timestamp onto the body,
insert it, then `$inc` by 1 the camp matching
`new ObjectId(registration.campId)`. When the body has no `campId`,
`new ObjectId(undefined)` draws a fresh ObjectId, which matches no stored
camp, so the `$inc` modifies nothing (`modifiedCount = 0`) and the call
still succeeds. Responds with the new registration id and that
modifiedCount. -/
def register (r : RegReq) (now : Nat) (db : DB) : RegisterResult × DB :=
  let reg := newRegistration r now db.nextId
  let u := match r.campId with
    | some x => updateFirst (fun c : Camp => c.cid == x)
        (fun c : Camp => { c with participant_count := c.participant_count + 1 })
        db.camps
    | none => (db.camps, 0)
  ({ status := 200, registrationId := some db.nextId, updatedCount := u.2 },
   { db with registrations := db.registrations ++ [reg], camps := u.1,
             nextId := db.nextId + 1 })

/-- The camp a stored registration points the counter updates at:
`registration.campId || registration.camp_id` from the delete handler — an
ObjectId string is truthy whenever present, so `campId` wins when both
exist. -/
def refTarget (g : Registration) : Option Nat :=
  match g.campId with
  | some x => some x
  | none => g.camp_id

/-- `DELETE /registrations/:id`: fetch the registration (404 when absent),
delete it, then `$inc` by −1 the camp matching
`new ObjectId(registration.campId || registration.camp_id)`. When both
fields are absent `new ObjectId(undefined)` draws a fresh ObjectId matching
no stored camp, so nothing is decremented. -/
def deleteRegistration (id : Nat) (db : DB) : DeleteRegResult × DB :=
  match db.registrations.find? (fun g => g.rid == id) with
  | none => ({ status := 404, deletedCount := 0 }, db)
  | some reg =>
    let d := deleteFirst (fun g => g.rid == id) db.registrations
    if 0 < d.2 then
      let u := match refTarget reg with
        | some x => updateFirst (fun c : Camp => c.cid == x)
            (fun c : Camp => { c with participant_count := c.participant_count - 1 })
            db.camps
        | none => (db.camps, 0)
      ({ status := 200, deletedCount := d.2 },
       { db with registrations := d.1, camps := u.1 })
    else ({ status := 400, deletedCount := 0 }, db)

/-- The case-insensitive email match
`{ email: { $regex: ^email$, $options: "i" } }` of the payment handler. -/
def emailMatchCI (pat : String) (e : String) : Bool :=
  lowerStr e == lowerStr pat

/-- The `$set` of the payment handler on a registration: the three payment
fields from the request body, `confirmationStatus` forced to
`"confirmed"`. -/
def paidUpdate (b : PaymentReq) (g : Registration) : Registration :=
  { g with paymentStatus := b.paymentStatus.getD "",
           transactionId := some (b.transactionId.getD ""),
           paymentDate := some (b.paymentDate.getD ""),
           confirmationStatus := "confirmed" }

/-- The Payment document the payment handler inserts: denormalized
participant email and camp name from the re-fetched registration, amount
`registration.campFees || amount || 0`. -/
def paymentDoc (b : PaymentReq) (reg : Registration) (id : Nat) : Payment :=
  { pid := id, participantEmail := reg.participantEmail,
    campName := reg.campName, amount := jsAmount reg.campFees b.amount,
    paymentStatus := b.paymentStatus.getD "",
    confirmationStatus := "confirmed",
    transactionId := b.transactionId.getD "",
    paymentDate := b.paymentDate.getD "" }

/-- The unconditional role overwrite of the payment handler. -/
def promoteParticipant (x : User) : User := { x with role := "participant" }

/-- `PATCH /registrations/:id/payment`: 400 unless `transactionId`,
`paymentStatus` and `paymentDate` are all truthy; then `$set` the payment
fields and force `confirmationStatus = "confirmed"` on the registration;
re-fetch it (404 when absent); append a Payment whose amount is
`registration.campFees || amount || 0`; finally set the role of the user
matching the participant email (case-insensitively) to `"participant"`. -/
def recordPayment (id : Nat) (b : PaymentReq) (db : DB) :
    RecordPaymentResult × DB :=
  if !strTruthy b.transactionId || !strTruthy b.paymentStatus
      || !strTruthy b.paymentDate then
    ({ status := 400, registrationUpdate := 0, paymentInsert := none,
       roleUpdate := 0 }, db)
  else
    let ru := updateFirst (fun g => g.rid == id) (paidUpdate b)
        db.registrations
    match ru.1.find? (fun g => g.rid == id) with
    | none =>
      ({ status := 404, registrationUpdate := ru.2, paymentInsert := none,
         roleUpdate := 0 }, { db with registrations := ru.1 })
    | some reg =>
      let uu := updateFirst (fun x => emailMatchCI reg.participantEmail x.email)
          promoteParticipant db.users
      ({ status := 200, registrationUpdate := ru.2,
         paymentInsert := some db.nextId, roleUpdate := uu.2 },
       { db with registrations := ru.1,
                 payments := db.payments ++ [paymentDoc b reg db.nextId],
                 users := uu.1, nextId := db.nextId + 1 })

/-- One step of the registration lifecycle: the two operations that touch
`participant_count`. -/
inductive LifecycleOp where
  | registerOp (r : RegReq) (now : Nat)
  | deleteRegOp (id : Nat)
deriving DecidableEq

/-- State effect of a lifecycle operation (the response is discarded). -/
def applyOp (db : DB) : LifecycleOp → DB
  | .registerOp r now => (register r now db).2
  | .deleteRegOp id => (deleteRegistration id db).2

/-- State effect of a sequence of lifecycle operations. -/
def applyOps (db : DB) (ops : List LifecycleOp) : DB :=
  ops.foldl applyOp db

/-- Whether a lifecycle operation comes from the server's own clients: a
register body carries the `campId` field. A body that omits it is still
accepted by the handler but skews the counter (see the C3 counterexample). -/
def opValid : LifecycleOp → Bool
  | .registerOp r _ => r.campId.isSome
  | .deleteRegOp _ => true

/-- The number of registrations whose counter-reference
(`campId || camp_id`) is camp `cid`. -/
def campRegCount (regs : List Registration) (cid : Nat) : Nat :=
  (regs.filter (fun g => refTarget g == some cid)).length

/-- The counter invariant: camp ids are pairwise distinct (Mongo `_id`
uniqueness) and every camp's `participant_count` equals the number of
registrations referencing it. -/
def counterInv (db : DB) : Prop :=
  db.camps.Pairwise (fun a b => a.cid ≠ b.cid) ∧
  ∀ c ∈ db.camps,
    c.participant_count = (campRegCount db.registrations c.cid : Int)

/-! ## Lemmas about the store primitives -/

theorem updateFirst_of_forall_not (p : α → Bool) (f : α → α) (l : List α)
    (h : ∀ x ∈ l, p x = false) : updateFirst p f l = (l, 0) := by
  induction l with
  | nil => rfl
  | cons x xs ih =>
    have hx : p x = false := h x (List.mem_cons_self x xs)
    have hxs : ∀ y ∈ xs, p y = false := fun y hy => h y (List.mem_cons_of_mem x hy)
    simp [updateFirst, hx, ih hxs]

theorem find?_updateFirst (p : α → Bool) (f : α → α)
    (hpf : ∀ x, p (f x) = p x) (l : List α) :
    (updateFirst p f l).1.find? p = (l.find? p).map f := by
  induction l with
  | nil => rfl
  | cons x xs ih =>
    cases hx : p x with
    | true => simp [updateFirst, hx, List.find?_cons, hpf]
    | false => simp [updateFirst, hx, List.find?_cons, ih]

theorem find?_updateFirst_inc (X : Nat) (camps : List Camp) :
    ((updateFirst (fun c => c.cid == X)
      (fun c => { c with participant_count := c.participant_count + 1 })
      camps).1).find? (fun c => c.cid == X)
    = (camps.find? (fun c => c.cid == X)).map
        (fun c => { c with participant_count := c.participant_count + 1 }) := by
  apply find?_updateFirst
  intro x
  rfl

theorem find?_updateFirst_paid (id : Nat) (b : PaymentReq)
    (regs : List Registration) :
    ((updateFirst (fun g => g.rid == id) (paidUpdate b) regs).1).find?
      (fun g => g.rid == id)
    = (regs.find? (fun g => g.rid == id)).map (paidUpdate b) := by
  apply find?_updateFirst
  intro x
  rfl

theorem find?_updateFirst_promote (pat : String) (users : List User) :
    ((updateFirst (fun x => emailMatchCI pat x.email) promoteParticipant
      users).1).find? (fun x => emailMatchCI pat x.email)
    = (users.find? (fun x => emailMatchCI pat x.email)).map
        promoteParticipant := by
  apply find?_updateFirst
  intro x
  rfl

theorem find?_updateFirst_dec (X : Nat) (camps : List Camp) :
    ((updateFirst (fun c => c.cid == X)
      (fun c => { c with participant_count := c.participant_count - 1 })
      camps).1).find? (fun c => c.cid == X)
    = (camps.find? (fun c => c.cid == X)).map
        (fun c => { c with participant_count := c.participant_count - 1 }) := by
  apply find?_updateFirst
  intro x
  rfl

theorem updateFirst_map (g : α → β) (p : α → Bool) (f : α → α)
    (hgf : ∀ x, g (f x) = g x) (l : List α) :
    (updateFirst p f l).1.map g = l.map g := by
  induction l with
  | nil => rfl
  | cons x xs ih =>
    cases hx : p x with
    | true => simp [updateFirst, hx, hgf]
    | false => simp [updateFirst, hx, ih]

theorem find?_append_singleton (p : α → Bool) (l : List α) (a : α)
    (hl : ∀ x ∈ l, p x = false) (ha : p a = true) :
    (l ++ [a]).find? p = some a := by
  induction l with
  | nil => simp [List.find?_cons, ha]
  | cons x xs ih =>
    have hx : p x = false := hl x (List.mem_cons_self x xs)
    have hxs : ∀ y ∈ xs, p y = false := fun y hy => hl y (List.mem_cons_of_mem x hy)
    simp [List.find?_cons, hx, ih hxs]

theorem deleteFirst_append_singleton (p : α → Bool) (l : List α) (a : α)
    (hl : ∀ x ∈ l, p x = false) (ha : p a = true) :
    deleteFirst p (l ++ [a]) = (l, 1) := by
  induction l with
  | nil => simp [deleteFirst, ha]
  | cons x xs ih =>
    have hx : p x = false := hl x (List.mem_cons_self x xs)
    have hxs : ∀ y ∈ xs, p y = false := fun y hy => hl y (List.mem_cons_of_mem x hy)
    simp [deleteFirst, hx, ih hxs]

theorem bool_eq_true_of_not_eq_false (b : Bool) (h : ¬ b = false) :
    b = true := by
  cases b
  · exact absurd rfl h
  · rfl

theorem updateFirst_snd_of_find? (p : α → Bool) (f : α → α) {l : List α}
    {a : α} (h : l.find? p = some a) : (updateFirst p f l).2 = 1 := by
  induction l with
  | nil => simp [List.find?] at h
  | cons x xs ih =>
    cases hx : p x with
    | true => simp [updateFirst, hx]
    | false =>
      rw [List.find?_cons, hx] at h
      simp [updateFirst, hx, ih h]

theorem deleteFirst_decomp (p : α → Bool) {l : List α} {a : α}
    (h : l.find? p = some a) :
    ∃ l₁ l₂, l = l₁ ++ a :: l₂ ∧ (∀ x ∈ l₁, p x = false) ∧
      deleteFirst p l = (l₁ ++ l₂, 1) := by
  induction l with
  | nil => simp [List.find?] at h
  | cons x xs ih =>
    cases hx : p x with
    | true =>
      have hax : a = x := by
        rw [List.find?_cons, hx] at h
        exact (Option.some.inj h).symm
      exact ⟨[], xs, by simp [hax], by simp, by simp [deleteFirst, hx]⟩
    | false =>
      have h' : xs.find? p = some a := by
        rw [List.find?_cons, hx] at h
        exact h
      obtain ⟨l₁, l₂, hL, hAll, hDel⟩ := ih h'
      refine ⟨x :: l₁, l₂, by simp [hL], ?_, by simp [deleteFirst, hx, hDel]⟩
      intro y hy
      rcases List.mem_cons.mp hy with hyx | hyl
      · simpa [hyx] using hx
      · exact hAll y hyl

/-! ## Counting registrations per camp -/

theorem campRegCount_append_singleton (regs : List Registration)
    (g : Registration) (X : Nat) :
    campRegCount (regs ++ [g]) X =
      campRegCount regs X + (if refTarget g = some X then 1 else 0) := by
  by_cases h : refTarget g = some X
  · simp [campRegCount, List.filter_append, h]
  · simp [campRegCount, List.filter_append, h]

theorem campRegCount_middle (l₁ l₂ : List Registration)
    (g : Registration) (X : Nat) :
    campRegCount (l₁ ++ g :: l₂) X =
      campRegCount (l₁ ++ l₂) X + (if refTarget g = some X then 1 else 0) := by
  by_cases h : refTarget g = some X
  · simp [campRegCount, List.filter_append, h, Nat.add_comm, Nat.add_left_comm]
  · simp [campRegCount, List.filter_append, h]

/-- Transfer of the per-camp count equation across one `$inc` by `d` on the
camp whose id is `X`, when the registration list changes from `regs` to
`regs'` by `d` at `X` and not at all elsewhere. Camp-id distinctness makes
the single updated document the only one with id `X`. -/
theorem counts_updateFirst_delta (X : Nat) (d : Int) (f : Camp → Camp)
    (hfcid : ∀ x, (f x).cid = x.cid)
    (hfpc : ∀ x, (f x).participant_count = x.participant_count + d)
    (regs regs' : List Registration) (camps : List Camp)
    (hsame : ∀ Y, Y ≠ X → campRegCount regs' Y = campRegCount regs Y)
    (hX : (campRegCount regs' X : Int) = (campRegCount regs X : Int) + d) :
    camps.Pairwise (fun a b => a.cid ≠ b.cid) →
    (∀ c ∈ camps, c.participant_count = (campRegCount regs c.cid : Int)) →
    ∀ c ∈ (updateFirst (fun c => c.cid == X) f camps).1,
      c.participant_count = (campRegCount regs' c.cid : Int) := by
  induction camps with
  | nil => intro _ _ c hc; simp [updateFirst] at hc
  | cons c₀ cs ih =>
    intro hp hinv
    obtain ⟨hhead, htail⟩ := List.pairwise_cons.mp hp
    cases hx : (c₀.cid == X) with
    | true =>
      have hcid : c₀.cid = X := by simpa using hx
      intro c hc
      simp only [updateFirst, hx, if_true] at hc
      rcases List.mem_cons.mp hc with rfl | hc
      · rw [hfpc c₀, hfcid c₀, hinv c₀ (List.mem_cons_self c₀ cs), hcid, ← hX]
      · have hne : c.cid ≠ X := by
          intro hcX
          exact hhead c hc (hcid.trans hcX.symm)
        rw [hsame c.cid hne]
        exact hinv c (List.mem_cons_of_mem c₀ hc)
    | false =>
      have hcid : c₀.cid ≠ X := by simpa using hx
      intro c hc
      simp only [updateFirst, hx, Bool.false_eq_true, if_false] at hc
      rcases List.mem_cons.mp hc with hceq | hc
      · subst hceq
        rw [hsame c.cid hcid]
        exact hinv c (List.mem_cons_self c cs)
      · exact ih htail
          (fun x hx => hinv x (List.mem_cons_of_mem c₀ hx)) c hc

/-- Camp ids are untouched by a `$inc` update, so their pairwise
distinctness survives. -/
theorem pairwise_cid_updateFirst (p : Camp → Bool) (f : Camp → Camp)
    (hf : ∀ c, (f c).cid = c.cid) (camps : List Camp)
    (hp : camps.Pairwise (fun a b => a.cid ≠ b.cid)) :
    ((updateFirst p f camps).1).Pairwise (fun a b => a.cid ≠ b.cid) := by
  have hmap := updateFirst_map Camp.cid p f hf camps
  have hp' : ((updateFirst p f camps).1.map Camp.cid).Pairwise (· ≠ ·) := by
    rw [hmap]
    exact List.pairwise_map.mpr hp
  exact List.pairwise_map.mp hp'

/-- `register` as a state equation when the body carries `campId`: the
registration appended, that camp bumped through `updateFirst`, a fresh id
consumed. -/
theorem register_snd_some (r : RegReq) (now : Nat) (db : DB) (x : Nat)
    (hx : r.campId = some x) :
    (register r now db).2 =
      { db with
        registrations := db.registrations ++ [newRegistration r now db.nextId],
        camps := (updateFirst (fun c => c.cid == x)
          (fun c => { c with participant_count := c.participant_count + 1 })
          db.camps).1,
        nextId := db.nextId + 1 } := by
  simp [register, hx]

/-- `register`'s response when the body carries `campId`. -/
theorem register_fst_some (r : RegReq) (now : Nat) (db : DB) (x : Nat)
    (hx : r.campId = some x) :
    (register r now db).1 =
      { status := 200, registrationId := some db.nextId,
        updatedCount := (updateFirst (fun c => c.cid == x)
          (fun c => { c with participant_count := c.participant_count + 1 })
          db.camps).2 } := by
  simp [register, hx]

/-- A register whose body carries `campId` preserves the counter
invariant: the inserted registration and the `$inc` by `+1` move both
sides of the equation together. -/
theorem counterInv_register (r : RegReq) (now : Nat) (db : DB) (x : Nat)
    (hx : r.campId = some x)
    (h : counterInv db) : counterInv (register r now db).2 := by
  obtain ⟨hp, hinv⟩ := h
  rw [counterInv, register_snd_some r now db x hx]
  constructor
  · exact pairwise_cid_updateFirst (fun c => c.cid == x)
      (fun c => { c with participant_count := c.participant_count + 1 })
      (fun c => rfl) db.camps hp
  · intro c hc
    refine counts_updateFirst_delta x 1
      (fun c => { c with participant_count := c.participant_count + 1 })
      (fun y => rfl) (fun y => rfl)
      db.registrations _ db.camps ?_ ?_ hp hinv c hc
    · intro Y hY
      rw [campRegCount_append_singleton]
      simp [newRegistration, refTarget, hx, hY.symm]
    · rw [campRegCount_append_singleton]
      simp [newRegistration, refTarget, hx]

/-- `deleteRegistration` as a state equation, in the found case with a
counter reference: the registration removed, the referenced camp
decremented through `updateFirst`. -/
theorem deleteRegistration_snd_found_some (id : Nat) (db : DB)
    {reg : Registration} {l₁ l₂ : List Registration} {x : Nat}
    (hfind : db.registrations.find? (fun g => g.rid == id) = some reg)
    (hDel : deleteFirst (fun g => g.rid == id) db.registrations = (l₁ ++ l₂, 1))
    (hrt : refTarget reg = some x) :
    (deleteRegistration id db).2 =
      { db with
        registrations := l₁ ++ l₂,
        camps := (updateFirst (fun c => c.cid == x)
          (fun c => { c with participant_count := c.participant_count - 1 })
          db.camps).1 } := by
  simp [deleteRegistration, hfind, hDel, hrt]

/-- `deleteRegistration` as a state equation, in the found case with no
counter reference at all (`campId` and `camp_id` both absent): only the
registration is removed. -/
theorem deleteRegistration_snd_found_none (id : Nat) (db : DB)
    {reg : Registration} {l₁ l₂ : List Registration}
    (hfind : db.registrations.find? (fun g => g.rid == id) = some reg)
    (hDel : deleteFirst (fun g => g.rid == id) db.registrations = (l₁ ++ l₂, 1))
    (hrt : refTarget reg = none) :
    (deleteRegistration id db).2 = { db with registrations := l₁ ++ l₂ } := by
  simp [deleteRegistration, hfind, hDel, hrt]

/-- `deleteRegistration` preserves the counter invariant: the removed
registration and the `$inc` by `−1` at its counter reference move both
sides together, and a reference-free registration touches neither side. -/
theorem counterInv_deleteReg (id : Nat) (db : DB)
    (h : counterInv db) : counterInv (deleteRegistration id db).2 := by
  obtain ⟨hp, hinv⟩ := h
  cases hfind : db.registrations.find? (fun g => g.rid == id) with
  | none =>
    simpa [deleteRegistration, hfind, counterInv] using ⟨hp, hinv⟩
  | some reg =>
    obtain ⟨l₁, l₂, hL, hAll, hDel⟩ := deleteFirst_decomp _ hfind
    cases hrt : refTarget reg with
    | none =>
      rw [counterInv, deleteRegistration_snd_found_none id db hfind hDel hrt]
      constructor
      · exact hp
      · intro c hc
        rw [hinv c hc, hL, campRegCount_middle]
        simp [hrt]
    | some x =>
      rw [counterInv, deleteRegistration_snd_found_some id db hfind hDel hrt]
      constructor
      · exact pairwise_cid_updateFirst (fun c => c.cid == x)
          (fun c => { c with participant_count := c.participant_count - 1 })
          (fun c => rfl) db.camps hp
      · intro c hc
        refine counts_updateFirst_delta x (-1)
          (fun c => { c with participant_count := c.participant_count - 1 })
          (fun y => rfl) (fun y => by simp [sub_eq_add_neg])
          db.registrations (l₁ ++ l₂) db.camps ?_ ?_ hp hinv c hc
        · intro Y hY
          conv_rhs => rw [hL]
          rw [campRegCount_middle]
          have hYne : ¬ refTarget reg = some Y := by
            rw [hrt]
            intro hh
            exact hY (Option.some.inj hh).symm
          simp [hYne]
        · conv_rhs => rw [hL]
          rw [campRegCount_middle]
          rw [if_pos hrt]
          push_cast
          ring

/-- Every lifecycle operation whose register bodies carry `campId`
preserves the counter invariant. -/
theorem counterInv_applyOp (db : DB) (op : LifecycleOp)
    (hop : opValid op = true)
    (h : counterInv db) : counterInv (applyOp db op) := by
  cases op with
  | registerOp r now =>
    obtain ⟨x, hx⟩ := Option.isSome_iff_exists.mp hop
    exact counterInv_register r now db x hx h
  | deleteRegOp id => exact counterInv_deleteReg id db h

/-- Every sequence of lifecycle operations whose register bodies carry
`campId` preserves the counter invariant. -/
theorem counterInv_applyOps (db : DB) (ops : List LifecycleOp)
    (hw : ∀ op ∈ ops, opValid op = true)
    (h : counterInv db) : counterInv (applyOps db ops) := by
  induction ops generalizing db with
  | nil => exact h
  | cons op ops ih =>
    exact ih (applyOp db op)
      (fun o ho => hw o (List.mem_cons_of_mem op ho))
      (counterInv_applyOp db op (hw op (List.mem_cons_self op ops)) h)

/-! ## Concrete data for witnesses and counterexamples

A database built through the operations themselves: one user, one camp
created by `createCamp`, one registration created by `register`. -/

def db0 : DB :=
  { users := [{ uid := 9, email := "p@x.com", role := "user",
                created_at := 0, last_log_in := 0 }],
    camps := [], registrations := [], payments := [], nextId := 0 }

def sampleCampReq : CampReq :=
  { title := some "Health Camp", date := some "2024-01-01",
    time := some "10:00", images := some ["x.png"] }

/-- `db0` after `POST /camps`: camp `0`, `participant_count = 0`. -/
def dbCamp : DB := (createCamp sampleCampReq 0 db0).2

def sampleRegReq : RegReq :=
  { campId := some 0, participantEmail := "P@x.com",
    campName := "Health Camp", campFees := some 50 }

/-- `dbCamp` after `POST /registrations`: registration `1` against camp
`0`, whose `participant_count` is now `1`. -/
def dbReg : DB := (register sampleRegReq 1 dbCamp).2

def samplePay : PaymentReq :=
  { transactionId := some "T1", paymentStatus := some "paid",
    paymentDate := some "2024-01-02" }

/-- A payment body with the date missing — the C5 failing shape. -/
def missingDatePay : PaymentReq :=
  { transactionId := some "T1", paymentStatus := some "paid",
    paymentDate := none }

/-- A registration request referencing a camp id no camp has. -/
def strayRegReq : RegReq :=
  { campId := some 5, participantEmail := "q@x.com", campName := "Nowhere" }

/-- A registration body that omits `campId` but carries `camp_id` — the
shape the handler accepts without validation and the C3 counterexample
exploits. -/
def fallbackRegReq : RegReq :=
  { campId := none, camp_id := some 0, participantEmail := "q@x.com",
    campName := "Health Camp" }

/-- The camp stored in `dbCamp`, as `createCamp` wrote it. -/
def sampleCamp : Camp :=
  { cid := 0, title := "Health Camp", date := "2024-01-01", time := "10:00",
    images := ["x.png"], participant_count := 0, createdAt := 0 }

/-! ## The claims -/

/-- Claim C5: a `recordPayment` request missing any of transaction
reference, payment status or payment date is rejected with 400 and has no
side effects: the database — registrations, payments, users — is returned
unchanged. -/
theorem recordPayment_missing_field_rejected (id : Nat) (b : PaymentReq)
    (db : DB)
    (h : strTruthy b.transactionId = false ∨ strTruthy b.paymentStatus = false
      ∨ strTruthy b.paymentDate = false) :
    recordPayment id b db =
      ({ status := 400, registrationUpdate := 0, paymentInsert := none,
         roleUpdate := 0 }, db) := by
  rcases h with h | h | h <;> simp [recordPayment, h]

/-- Claim C5 witness: `recordPayment` with a missing `paymentDate` on the
concrete store is a 400 no-op. -/
theorem recordPayment_missing_field_rejected_witness :
    strTruthy missingDatePay.paymentDate = false ∧
    recordPayment 1 missingDatePay dbReg =
      ({ status := 400, registrationUpdate := 0, paymentInsert := none,
         roleUpdate := 0 }, dbReg) :=
  ⟨by decide,
   recordPayment_missing_field_rejected 1 missingDatePay dbReg
     (Or.inr (Or.inr (by decide)))⟩

/-- Claim C7: `POST /camps` is rejected with 400 exactly when title, date
or time is missing/empty or the image list is absent/empty; an accepted
request leaves the database extended by a camp with `participant_count = 0`
and the handler's own timestamp, regardless of what the caller supplied for
either field. -/
theorem createCamp_validates_and_stamps (c : CampReq) (now : Nat) (db : DB) :
    ((createCamp c now db).1.status = 400 ↔
      (strTruthy c.title = false ∨ strTruthy c.date = false ∨
       strTruthy c.time = false ∨ imagesTruthy c.images = false)) ∧
    ((createCamp c now db).1.status = 400 → (createCamp c now db).2 = db) ∧
    ((createCamp c now db).1.status ≠ 400 →
      (createCamp c now db).1.status = 200 ∧
      (createCamp c now db).2.camps = db.camps ++
        [{ cid := db.nextId, title := c.title.getD "", date := c.date.getD "",
           time := c.time.getD "", images := c.images.getD [],
           participant_count := 0, createdAt := now }]) := by
  by_cases h1 : strTruthy c.title = false
  · simp [createCamp, h1]
  · by_cases h2 : strTruthy c.date = false
    · simp [createCamp, h1, h2]
    · by_cases h3 : strTruthy c.time = false
      · simp [createCamp, h1, h2, h3]
      · by_cases h4 : imagesTruthy c.images = false
        · simp [createCamp, h1, h2, h3, h4]
        · simp [createCamp, bool_eq_true_of_not_eq_false _ h1,
            bool_eq_true_of_not_eq_false _ h2,
            bool_eq_true_of_not_eq_false _ h3,
            bool_eq_true_of_not_eq_false _ h4]

/-- Claim C7 witness: the concrete valid request is accepted and stored
with counter 0 and the operation timestamp. -/
theorem createCamp_validates_and_stamps_witness :
    (createCamp sampleCampReq 0 db0).2.camps = db0.camps ++
      [{ cid := 0, title := "Health Camp", date := "2024-01-01",
         time := "10:00", images := ["x.png"], participant_count := 0,
         createdAt := 0 }] :=
  ((createCamp_validates_and_stamps sampleCampReq 0 db0).2.2
    (by decide)).2

/-- Claim C9: `POST /users` with an email that (after lowercasing) already
belongs to a stored user answers 409 and inserts nothing; consequently a
store with pairwise-distinct user emails still has pairwise-distinct user
emails after any `createUser` call. -/
theorem createUser_conflict_unique (u : UserReq) (now : Nat) (db : DB) :
    (∀ u₀, db.users.find? (fun x => x.email == lowerStr u.email) = some u₀ →
      createUser u now db = ({ status := 409, insertedId := none }, db)) ∧
    (db.users.Pairwise (fun a b => a.email ≠ b.email) →
      (createUser u now db).2.users.Pairwise (fun a b => a.email ≠ b.email)) := by
  constructor
  · intro u₀ hfind
    simp [createUser, hfind]
  · intro hp
    cases hfind : db.users.find? (fun x => x.email == lowerStr u.email) with
    | some u₀ => simpa [createUser, hfind] using hp
    | none =>
      have hne : ∀ x ∈ db.users, x.email ≠ lowerStr u.email := by
        intro x hx
        have := List.find?_eq_none.mp hfind x hx
        simpa using this
      simp only [createUser, hfind]
      rw [List.pairwise_append]
      refine ⟨hp, by simp, ?_⟩
      intro a ha b hb
      rw [List.mem_singleton.mp hb]
      exact hne a ha

/-- Claim C9 witness: re-posting the stored user's email (in different
case) on the concrete store answers 409 and leaves the store unchanged. -/
theorem createUser_conflict_unique_witness :
    createUser { email := "P@x.com" } 7 dbReg =
      ({ status := 409, insertedId := none }, dbReg) :=
  (createUser_conflict_unique { email := "P@x.com" } 7 dbReg).1
    { uid := 9, email := "p@x.com", role := "user",
      created_at := 0, last_log_in := 0 } (by decide)

/-- Claim C10: `POST /registrations` whose `campId` matches no camp still
inserts the registration and reports success with `updatedCount = 0`; no
404 is raised and no camp is touched. -/
theorem register_missing_camp (r : RegReq) (now : Nat) (db : DB) (x : Nat)
    (hx : r.campId = some x)
    (h : db.camps.find? (fun c => c.cid == x) = none) :
    (register r now db).1.status = 200 ∧
    (register r now db).1.registrationId = some db.nextId ∧
    (register r now db).1.updatedCount = 0 ∧
    (register r now db).2.camps = db.camps ∧
    (register r now db).2.registrations =
      db.registrations ++ [newRegistration r now db.nextId] := by
  have hno : ∀ c ∈ db.camps, (c.cid == x) = false := by
    intro c hc
    have := List.find?_eq_none.mp h c hc
    simpa using this
  have hup := updateFirst_of_forall_not (fun c => c.cid == x)
    (fun c => { c with participant_count := c.participant_count + 1 })
    db.camps hno
  simp [register, hx, hup]

/-- Claim C10 witness: registering against the nonexistent camp `5` on the
concrete store succeeds with `updatedCount = 0`. -/
theorem register_missing_camp_witness :
    (register strayRegReq 3 dbReg).1.updatedCount = 0 ∧
    (register strayRegReq 3 dbReg).2.camps = dbReg.camps :=
  ⟨(register_missing_camp strayRegReq 3 dbReg 5 (by decide)
      (by decide)).2.2.1,
   (register_missing_camp strayRegReq 3 dbReg 5 (by decide)
      (by decide)).2.2.2.1⟩

/-- Claim C8: the cascade of `DELETE /camps/:id` filters registrations on
the field `camp_id`, but `POST /registrations` stores the camp reference
under `campId`; deleting camp `0` therefore succeeds yet leaves the
registration referencing camp `0` in the store — the code contradicts its
own cascade comment at the failing input built from its own handlers. -/
theorem deleteCamp_cascade_misses_campId :
    (deleteCamp 0 dbReg).1.status = 200 ∧
    (deleteCamp 0 dbReg).2.camps = [] ∧
    (deleteCamp 0 dbReg).2.registrations.length = 1 ∧
    ∀ g ∈ (deleteCamp 0 dbReg).2.registrations, g.campId = some 0 := by
  refine ⟨by decide, by decide, by decide, by decide⟩

/-- Claim C6: `POST /registrations` always answers 200 with the new
registration id; the stored registration is the body with
`paymentStatus = "unpaid"`, `confirmationStatus = "pending"` and the
handler's timestamp forced on — whatever the caller supplied for those
fields — and when the referenced camp exists its `participant_count` is
incremented by 1 and the response reports `updatedCount = 1`. -/
theorem register_defaults_and_increment (r : RegReq) (now : Nat) (db : DB) :
    (register r now db).1.status = 200 ∧
    (register r now db).1.registrationId = some db.nextId ∧
    (register r now db).2.registrations =
      db.registrations ++ [newRegistration r now db.nextId] ∧
    (newRegistration r now db.nextId).paymentStatus = "unpaid" ∧
    (newRegistration r now db.nextId).confirmationStatus = "pending" ∧
    (newRegistration r now db.nextId).createdAt = now ∧
    (∀ x c₀, r.campId = some x →
      db.camps.find? (fun c => c.cid == x) = some c₀ →
      (register r now db).2.camps.find? (fun c => c.cid == x) =
        some { c₀ with participant_count := c₀.participant_count + 1 } ∧
      (register r now db).1.updatedCount = 1) := by
  refine ⟨rfl, rfl, rfl, rfl, rfl, rfl, ?_⟩
  intro x c₀ hx hfind
  constructor
  · rw [register_snd_some r now db x hx]
    show ((updateFirst (fun c => c.cid == x)
        (fun c => { c with participant_count := c.participant_count + 1 })
        db.camps).1).find? (fun c => c.cid == x) = _
    rw [find?_updateFirst_inc x db.camps, hfind]
    rfl
  · rw [register_fst_some r now db x hx]
    exact updateFirst_snd_of_find? _ _ hfind

/-- Claim C6 witness: the concrete registration bumps the concrete camp's
counter to 1. -/
theorem register_defaults_and_increment_witness :
    (register sampleRegReq 1 dbCamp).2.camps.find?
      (fun c => c.cid == 0) =
    some { sampleCamp with
           participant_count := sampleCamp.participant_count + 1 } :=
  ((register_defaults_and_increment sampleRegReq 1 dbCamp).2.2.2.2.2.2
    0 sampleCamp (by decide) (by decide)).1

/-- Claim C4: with the three payment fields present, `recordPayment` on a
missing registration is a 404 no-op; on a present registration it answers
200, stores the registration updated with the body's `paymentStatus`,
`transactionId`, `paymentDate` and a forced
`confirmationStatus = "confirmed"`, appends exactly the Payment document
whose amount is the camp-fee snapshot, else the caller's amount, else zero,
and overwrites the matching user's role to `"participant"` regardless of
its current value. -/
theorem recordPayment_effects (id : Nat) (b : PaymentReq) (db : DB)
    (h1 : strTruthy b.transactionId = true)
    (h2 : strTruthy b.paymentStatus = true)
    (h3 : strTruthy b.paymentDate = true) :
    (db.registrations.find? (fun g => g.rid == id) = none →
      recordPayment id b db =
        ({ status := 404, registrationUpdate := 0, paymentInsert := none,
           roleUpdate := 0 }, db)) ∧
    (∀ reg₀, db.registrations.find? (fun g => g.rid == id) = some reg₀ →
      (recordPayment id b db).1.status = 200 ∧
      (recordPayment id b db).2.registrations.find? (fun g => g.rid == id) =
        some (paidUpdate b reg₀) ∧
      (paidUpdate b reg₀).confirmationStatus = "confirmed" ∧
      (paidUpdate b reg₀).paymentStatus = b.paymentStatus.getD "" ∧
      (paidUpdate b reg₀).transactionId = some (b.transactionId.getD "") ∧
      (paidUpdate b reg₀).paymentDate = some (b.paymentDate.getD "") ∧
      (recordPayment id b db).2.payments =
        db.payments ++ [paymentDoc b (paidUpdate b reg₀) db.nextId] ∧
      (paymentDoc b (paidUpdate b reg₀) db.nextId).amount =
        jsAmount reg₀.campFees b.amount ∧
      (∀ u₀, db.users.find?
          (fun x => emailMatchCI reg₀.participantEmail x.email) = some u₀ →
        (recordPayment id b db).2.users.find?
          (fun x => emailMatchCI reg₀.participantEmail x.email) =
          some { u₀ with role := "participant" })) := by
  have hbf : (!strTruthy b.transactionId || !strTruthy b.paymentStatus
      || !strTruthy b.paymentDate) = false := by
    rw [h1, h2, h3]
    rfl
  constructor
  · intro hnone
    have hno : ∀ g ∈ db.registrations, (g.rid == id) = false := by
      intro g hg
      simpa using List.find?_eq_none.mp hnone g hg
    have hup := updateFirst_of_forall_not (fun g => g.rid == id)
      (paidUpdate b) db.registrations hno
    simp [recordPayment, hbf, hup, hnone]
  · intro reg₀ hfind
    have hfound : ((updateFirst (fun g => g.rid == id) (paidUpdate b)
        db.registrations).1).find? (fun g => g.rid == id) =
        some (paidUpdate b reg₀) := by
      rw [find?_updateFirst_paid id b db.registrations, hfind]
      rfl
    have hrp : recordPayment id b db =
        ({ status := 200,
           registrationUpdate := (updateFirst (fun g => g.rid == id)
             (paidUpdate b) db.registrations).2,
           paymentInsert := some db.nextId,
           roleUpdate := (updateFirst
             (fun x => emailMatchCI reg₀.participantEmail x.email)
             promoteParticipant db.users).2 },
         { db with
           registrations := (updateFirst (fun g => g.rid == id)
             (paidUpdate b) db.registrations).1,
           payments := db.payments ++
             [paymentDoc b (paidUpdate b reg₀) db.nextId],
           users := (updateFirst
             (fun x => emailMatchCI reg₀.participantEmail x.email)
             promoteParticipant db.users).1,
           nextId := db.nextId + 1 }) := by
      simp [recordPayment, hbf, hfound, paidUpdate]
    refine ⟨?_, ?_, rfl, rfl, rfl, rfl, ?_, rfl, ?_⟩
    · rw [hrp]
    · rw [hrp]
      exact hfound
    · rw [hrp]
    · intro u₀ hu
      rw [hrp]
      show ((updateFirst
          (fun x => emailMatchCI reg₀.participantEmail x.email)
          promoteParticipant db.users).1).find?
          (fun x => emailMatchCI reg₀.participantEmail x.email) = _
      rw [find?_updateFirst_promote reg₀.participantEmail db.users, hu]
      rfl

/-- Claim C4 witness: the concrete payment confirms the registration,
appends the 50-unit Payment and promotes the stored user. -/
theorem recordPayment_effects_witness :
    (recordPayment 1 samplePay dbReg).1.status = 200 ∧
    (recordPayment 1 samplePay dbReg).2.payments =
      dbReg.payments ++
        [paymentDoc samplePay
          (paidUpdate samplePay (newRegistration sampleRegReq 1 1)) 2] :=
  have h := (recordPayment_effects 1 samplePay dbReg (by decide) (by decide)
    (by decide)).2 (newRegistration sampleRegReq 1 1) (by decide)
  ⟨h.1, h.2.2.2.2.2.2.1⟩

/-- On a present registration and valid body, one `recordPayment` call
appends exactly one Payment record and keeps the registration findable —
the stepping stone for the two-call count. -/
theorem recordPayment_appends_one (id : Nat) (b : PaymentReq) (db : DB)
    (h1 : strTruthy b.transactionId = true)
    (h2 : strTruthy b.paymentStatus = true)
    (h3 : strTruthy b.paymentDate = true)
    (hreg : (db.registrations.find? (fun g => g.rid == id)).isSome) :
    (recordPayment id b db).2.payments.length = db.payments.length + 1 ∧
    ((recordPayment id b db).2.registrations.find?
      (fun g => g.rid == id)).isSome := by
  obtain ⟨reg₀, hfind⟩ := Option.isSome_iff_exists.mp hreg
  obtain ⟨-, h200⟩ := recordPayment_effects id b db h1 h2 h3
  obtain ⟨-, hregs, -, -, -, -, hpay, -, -⟩ := h200 reg₀ hfind
  constructor
  · rw [hpay]
    simp
  · rw [hregs]
    rfl

/-- Claim C1 (counterexample): on the concrete store — camp, registration,
no payments — calling `recordPayment` twice with the same transaction
reference `"T1"` leaves two Payment records carrying `"T1"`, not one. -/
theorem recordPayment_not_idempotent :
    dbReg.payments = [] ∧
    ((recordPayment 1 samplePay
        (recordPayment 1 samplePay dbReg).2).2.payments.map
      (fun p => p.transactionId)) = ["T1", "T1"] := by
  refine ⟨by decide, by decide⟩

/-- Claim C1 (amended): `recordPayment` is not idempotent — every
successful call appends one Payment record, so calling it twice with the
same transaction reference inserts exactly two Payment records. -/
theorem recordPayment_twice_appends_two (id : Nat) (b : PaymentReq) (db : DB)
    (h1 : strTruthy b.transactionId = true)
    (h2 : strTruthy b.paymentStatus = true)
    (h3 : strTruthy b.paymentDate = true)
    (hreg : (db.registrations.find? (fun g => g.rid == id)).isSome) :
    (recordPayment id b (recordPayment id b db).2).2.payments.length =
      db.payments.length + 2 := by
  obtain ⟨hlen1, hsome1⟩ := recordPayment_appends_one id b db h1 h2 h3 hreg
  obtain ⟨hlen2, -⟩ := recordPayment_appends_one id b
    (recordPayment id b db).2 h1 h2 h3 hsome1
  omega

/-- Claim C1 (amended) witness: two concrete calls take the payments
collection from zero to two records. -/
theorem recordPayment_twice_appends_two_witness :
    (dbReg.registrations.find? (fun g => g.rid == 1)).isSome ∧
    (recordPayment 1 samplePay
        (recordPayment 1 samplePay dbReg).2).2.payments.length =
      dbReg.payments.length + 2 :=
  ⟨by decide, recordPayment_twice_appends_two 1 samplePay dbReg (by decide)
    (by decide) (by decide) (by decide)⟩

/-- Claim C2: for a registration created against an existing camp (and a
fresh registration id, as Mongo guarantees), `register` followed by
`deleteRegistration` of the returned id answers 200 and restores the
camp's `participant_count` to its pre-registration value. -/
theorem register_then_delete_restores_count (r : RegReq) (now : Nat)
    (db : DB) (X : Nat) (c₀ : Camp)
    (hx : r.campId = some X)
    (hc : db.camps.find? (fun c => c.cid == X) = some c₀)
    (hfresh : ∀ g ∈ db.registrations, g.rid ≠ db.nextId) :
    (register r now db).1.registrationId = some db.nextId ∧
    (deleteRegistration db.nextId (register r now db).2).1.status = 200 ∧
    ∃ c₁,
      (deleteRegistration db.nextId (register r now db).2).2.camps.find?
        (fun c => c.cid == X) = some c₁ ∧
      c₁.participant_count = c₀.participant_count := by
  have hno : ∀ g ∈ db.registrations, (g.rid == db.nextId) = false :=
    fun g hg => beq_eq_false_iff_ne.mpr (hfresh g hg)
  have hpnew : ((newRegistration r now db.nextId).rid == db.nextId) = true := by
    simp [newRegistration]
  have hfindR : (register r now db).2.registrations.find?
      (fun g => g.rid == db.nextId) = some (newRegistration r now db.nextId) :=
    find?_append_singleton _ _ _ hno hpnew
  have hdelR : deleteFirst (fun g => g.rid == db.nextId)
      (register r now db).2.registrations = (db.registrations, 1) :=
    deleteFirst_append_singleton _ _ _ hno hpnew
  have hrt : refTarget (newRegistration r now db.nextId) = some X := by
    simp [refTarget, newRegistration, hx]
  refine ⟨rfl, ?_, ?_⟩
  · simp [deleteRegistration, hfindR, hdelR]
  · refine ⟨{ c₀ with
        participant_count := c₀.participant_count + 1 - 1 }, ?_, by simp⟩
    have hcamps2 : (deleteRegistration db.nextId (register r now db).2).2.camps
        = (updateFirst (fun c => c.cid == X)
            (fun c => { c with participant_count := c.participant_count - 1 })
            ((register r now db).2.camps)).1 := by
      simp [deleteRegistration, hfindR, hdelR, hrt]
    have hcamps1 : (register r now db).2.camps
        = (updateFirst (fun c => c.cid == X)
            (fun c => { c with
              participant_count := c.participant_count + 1 })
            db.camps).1 := by
      rw [register_snd_some r now db X hx]
    rw [hcamps2, hcamps1, find?_updateFirst_dec, find?_updateFirst_inc, hc]
    rfl

/-- Claim C2 witness: on the concrete store the register/delete round trip
leaves camp `0` back at counter `0`. -/
theorem register_then_delete_restores_count_witness :
    ∃ c₁,
      (deleteRegistration dbCamp.nextId
        (register sampleRegReq 1 dbCamp).2).2.camps.find?
        (fun c => c.cid == 0) = some c₁ ∧
      c₁.participant_count = sampleCamp.participant_count :=
  (register_then_delete_restores_count sampleRegReq 1 dbCamp 0 sampleCamp
    (by decide) (by decide) (by decide)).2.2

/-- The two-operation sequence of the C3 counterexample: register a body
that omits `campId` but carries `camp_id = 0`, then delete that
registration. -/
def negOps : List LifecycleOp :=
  [.registerOp fallbackRegReq 1, .deleteRegOp 1]

/-- Claim C3 (counterexample): the freshly created camp satisfies the
counter invariant (counter 0, nothing referencing it), yet after the
two-operation sequence its `participant_count` is `−1`: the handler
accepts the body without `campId` (`new ObjectId(undefined)` matches no
camp, so the `+1` is a no-op) and the delete's
`registration.campId || registration.camp_id` fallback then applies the
`−1` to camp 0. -/
theorem lifecycle_counter_negative :
    counterInv dbCamp ∧
    ((applyOps dbCamp negOps).camps.map
      (fun c => c.participant_count)) = [-1] :=
  ⟨⟨by decide, by decide⟩, by decide⟩

/-- Claim C3 (amended): starting from any store satisfying the counter
invariant — in particular a freshly created camp, whose counter starts at
0 with no registrations referencing it — every sequence of register and
delete-registration operations whose register bodies carry the `campId`
field (the shape the server's own clients send) leaves every camp's
`participant_count` non-negative; a register body omitting `campId` can
drive it negative. -/
theorem lifecycle_counter_nonneg (db : DB) (ops : List LifecycleOp)
    (h : counterInv db) (hw : ∀ op ∈ ops, opValid op = true) :
    ∀ c ∈ (applyOps db ops).camps, 0 ≤ c.participant_count := by
  obtain ⟨-, hinv⟩ := counterInv_applyOps db ops hw h
  intro c hc
  rw [hinv c hc]
  exact Int.natCast_nonneg _

/-- A concrete operation sequence: two registers (one against a missing
camp), a delete of the first registration, a delete of a missing id. -/
def wops : List LifecycleOp :=
  [.registerOp sampleRegReq 1, .registerOp strayRegReq 2,
   .deleteRegOp 1, .deleteRegOp 99]

/-- Claim C3 (amended) witness: the freshly-created concrete camp
satisfies the invariant, the concrete sequence is well-formed, and every
counter stays non-negative across it. -/
theorem lifecycle_counter_nonneg_witness :
    counterInv dbCamp ∧ (∀ op ∈ wops, opValid op = true) ∧
    ∀ c ∈ (applyOps dbCamp wops).camps, 0 ≤ c.participant_count :=
  have hinv : counterInv dbCamp := ⟨by decide, by decide⟩
  have hw : ∀ op ∈ wops, opValid op = true := by decide
  ⟨hinv, hw, lifecycle_counter_nonneg dbCamp wops hinv hw⟩

end MedixCamp
